import Mathlib

/-!
Shallow embedding of the cavernborn particle-world core
(src/particle/*, src/world/chunk.rs, src/world/map.rs, src/simulation/*,
src/world/generator.rs) together with theorems settling the frozen claims.

Conventions used throughout:
* `u32` values are modelled as `Nat`; `i32` intermediates (buoyancy/offset
  arithmetic, Manhattan distances) are modelled as `Int` with the Rust
  `.max(0) as u32` clamp made explicit.
* A Rust function that can `panic` is modelled with `Except String` where the
  `error` case is the panic.
* Random draws (`rand::rng()`) are injected as explicit parameters so the
  simulation step is a deterministic function of the draw.
* The fixed `CHUNK_SIZE × CHUNK_SIZE` cell array of a chunk is modelled as a
  total function `Nat → Nat → Option Particle`; indices outside the array are
  never read by the embedded operations (the Rust code bounds-checks first).
-/

namespace Cavernborn

/-- Embedding of `u32::MAX` as a natural number. -/
def U32_MAX : Nat := 4294967295

/-- Embedding of `CHUNK_SIZE` from src/world/chunk.rs: the square size of a chunk. -/
def CHUNK_SIZE : Nat := 32

/-- Embedding of `ACTIVE_CHUNK_RANGE` from src/world/chunk.rs. -/
def ACTIVE_CHUNK_RANGE : Nat := 12

/-- Bevy's `UVec2`, a pair of `u32` coordinates. -/
structure UVec2 where
  x : Nat
  y : Nat
deriving DecidableEq, Repr

/-- The Rust `(expr as i32 ...).max(0) as u32` clamp. -/
def as_u32 (i : Int) : Nat := (max i 0).toNat

/-- Embedding of `Direction` from src/particle/mod.rs (Still = 0, Left = -1, Right = 1). -/
inductive Direction
  | Still
  | Left
  | Right
deriving DecidableEq, Repr

/-- Embedding of `Direction::as_int` from src/particle/mod.rs. -/
def Direction.as_int : Direction → Int
  | .Still => 0
  | .Left => -1
  | .Right => 1

/-- Embedding of `Direction::get_opposite` from src/particle/mod.rs. -/
def Direction.get_opposite : Direction → Direction
  | .Left => .Right
  | .Right => .Left
  | .Still => .Still

/-- Embedding of `Liquid` from src/particle/liquid.rs. -/
inductive Liquid
  | Water (d : Direction)
  | Lava (d : Direction)
  | Acid (d : Direction)
deriving DecidableEq, Repr

/-- Embedding of `std::mem::discriminant` on `Liquid`. -/
def Liquid.discr : Liquid → Nat
  | .Water _ => 0
  | .Lava _ => 1
  | .Acid _ => 2

/-- The manual `PartialEq for Liquid` (discriminant equality: two liquids that
differ only in direction compare equal). -/
def Liquid.beq (a b : Liquid) : Bool := a.discr == b.discr

/-- Embedding of `Liquid::get_buoyancy` (constantly -1: every liquid sinks). -/
def Liquid.get_buoyancy (_l : Liquid) : Int := -1

/-- Embedding of `Liquid::get_viscosity` from src/particle/liquid.rs. -/
def Liquid.get_viscosity : Liquid → Int
  | .Water _ => 5
  | .Lava _ => 3
  | .Acid _ => 4

/-- Embedding of `Liquid::get_direction`. -/
def Liquid.get_direction : Liquid → Direction
  | .Water d => d
  | .Lava d => d
  | .Acid d => d

/-- Embedding of `Liquid::get_flipped_direction`. -/
def Liquid.get_flipped_direction : Liquid → Liquid
  | .Water d => .Water d.get_opposite
  | .Lava d => .Lava d.get_opposite
  | .Acid d => .Acid d.get_opposite

/-- Embedding of `Common` from src/particle/mod.rs. -/
inductive Common
  | Dirt
  | Stone
deriving DecidableEq, Repr

/-- Embedding of `Ore` from src/particle/ore.rs. -/
inductive Ore
  | Gold
deriving DecidableEq, Repr

/-- Embedding of `Gem` from src/particle/gem.rs. -/
inductive Gem
  | Ruby
deriving DecidableEq, Repr

/-- Embedding of `Special` from src/particle/mod.rs. -/
inductive Special
  | Ore (o : Ore)
  | Gem (g : Gem)
deriving DecidableEq, Repr

/-- Embedding of `Solid` from src/particle/solid.rs. -/
inductive Solid
  | Obsidian
deriving DecidableEq, Repr

/-- Embedding of `Particle` from src/particle/mod.rs. -/
inductive Particle
  | Common (c : Common)
  | Special (s : Special)
  | Liquid (l : Liquid)
  | Solid (s : Solid)
deriving DecidableEq, Repr

/-- The derived `PartialEq for Particle`: same variant, payloads equal; the
`Liquid` payload uses the manual direction-insensitive equality. -/
def Particle.beq : Particle → Particle → Bool
  | .Common a, .Common b => a == b
  | .Special a, .Special b => a == b
  | .Liquid a, .Liquid b => Liquid.beq a b
  | .Solid a, .Solid b => a == b
  | _, _ => false

/-- Embedding of `Common::iter()` (the strum `EnumIter` order: declaration order). -/
def Common.iter : List Common := [Common.Dirt, Common.Stone]

/-- Embedding of `Common::min_depth` from src/particle/mod.rs. -/
def Common.min_depth : Common → Nat
  | .Dirt => 0
  | .Stone => 12

/-- Embedding of `Common::max_depth` from src/particle/mod.rs (`u32::MAX` for Stone). -/
def Common.max_depth : Common → Nat
  | .Dirt => 12
  | .Stone => U32_MAX

/-- The `matching_variants` vector built inside `Common::get_exclusive_at_depth`:
all Common variants whose half-open interval `[min_depth, max_depth)` contains
`depth`. -/
def Common.matching_variants (depth : Nat) : List Common :=
  Common.iter.filter (fun v => decide (v.min_depth ≤ depth) && decide (depth < v.max_depth))

/-- Embedding of `Common::get_exclusive_at_depth` from src/particle/mod.rs; both
zero-match and multiple-match branches are fatal (`Except.error`). -/
def Common.get_exclusive_at_depth (depth : Nat) : Except String Common :=
  match Common.matching_variants depth with
  | [] => .error "Cannot get common particle at depth."
  | [v] => .ok v
  | _ => .error "Multiple common particles valid at depth."

/-- Embedding of `InteractionPair` from src/particle/interaction.rs. -/
structure InteractionPair where
  source : Particle
  target : Particle
deriving DecidableEq, Repr

/-- Embedding of `InteractionType` from src/particle/interaction.rs. -/
inductive InteractionType
  | Replace
  | Preserve
deriving DecidableEq, Repr

/-- Embedding of `InteractionRule` from src/particle/interaction.rs. -/
structure InteractionRule where
  interaction_type : InteractionType
  result : Particle
deriving DecidableEq, Repr

/-- The manual `PartialEq for InteractionPair`: unordered-pair equality. -/
def InteractionPair.pairEq (a b : InteractionPair) : Bool :=
  (Particle.beq a.source b.source && Particle.beq a.target b.target)
    || (Particle.beq a.source b.target && Particle.beq a.target b.source)

/-- The `INTERACTION_RULES` static from src/particle/interaction.rs as an
association list in insertion order.  The `Preserve` rule's result direction is
drawn from the unseeded RNG when the lazy static is built; that draw is the
parameter `rdir`. -/
def INTERACTION_RULES (rdir : Direction) : List (InteractionPair × InteractionRule) :=
  [ (⟨Particle.Liquid (.Water .Still), Particle.Liquid (.Lava .Still)⟩,
      ⟨InteractionType.Replace, Particle.Solid .Obsidian⟩),
    (⟨Particle.Liquid (.Water .Still), Particle.Liquid (.Acid .Still)⟩,
      ⟨InteractionType.Preserve, Particle.Liquid (.Water rdir)⟩) ]

/-- Embedding of `INTERACTION_RULES.get(&pair)`: HashMap lookup, i.e. the first stored entry
whose key equals `pair` under the unordered `PartialEq`. -/
def rules_get (rdir : Direction) (pair : InteractionPair) : Option InteractionRule :=
  ((INTERACTION_RULES rdir).find? (fun e => InteractionPair.pairEq e.1 pair)).map (·.2)

/-- Embedding of `INTERACTION_RULES.contains_key(&pair)`. -/
def rules_contains (rdir : Direction) (pair : InteractionPair) : Bool :=
  ((INTERACTION_RULES rdir).find? (fun e => InteractionPair.pairEq e.1 pair)).isSome

/-! ## Coordinate helpers (src/utils/coords.rs) -/

/-- Embedding of `world_to_chunk` from src/utils/coords.rs (called `get_chunk_from_world_pos`
at its use sites in src/world/map.rs). -/
def world_to_chunk (world_pos : UVec2) : UVec2 :=
  ⟨world_pos.x / CHUNK_SIZE, world_pos.y / CHUNK_SIZE⟩

/-- Embedding of `world_to_local` from src/utils/coords.rs (called `world_to_chunk_local` at
its use sites in src/world/map.rs and src/simulation/mod.rs). -/
def world_to_local (world_pos : UVec2) : UVec2 :=
  ⟨world_pos.x % CHUNK_SIZE, world_pos.y % CHUNK_SIZE⟩

/-- Modelled from the spec: `chunk_local_to_world` (used by
src/simulation/fluid.rs, its definition is not among the provided sources);
the spec fixes `world coordinate = chunk_pos * CHUNK_SIZE + local_pos`. -/
def chunk_local_to_world (chunk_pos local_pos : UVec2) : UVec2 :=
  ⟨chunk_pos.x * CHUNK_SIZE + local_pos.x, chunk_pos.y * CHUNK_SIZE + local_pos.y⟩

/-! ## Chunk (src/world/chunk.rs) -/

/-- Embedding of `ParticleMove` from src/world/chunk.rs. -/
structure ParticleMove where
  source_pos : UVec2
  target_pos : UVec2
  particle : Particle
deriving DecidableEq, Repr

/-- Embedding of `Chunk` from src/world/chunk.rs.  The fixed
`[[Option<Particle>; CHUNK_SIZE]; CHUNK_SIZE]` array (indexed `cells[x][y]`) is
a total function; the cached world-boundary fields `x_min`/`x_max`/`y_min`/
`y_max`, which `Chunk::new` always derives from `position`, are modelled as the
derived accessors below. -/
structure Chunk where
  position : UVec2
  cells : Nat → Nat → Option Particle
  dirty : Bool
  should_simulate : Bool

/-- Embedding of `x_min` cached field: `position.x * CHUNK_SIZE` (set in `Chunk::new`). -/
def Chunk.x_min (c : Chunk) : Nat := c.position.x * CHUNK_SIZE

/-- Embedding of `x_max` cached field: `(position.x + 1) * CHUNK_SIZE`. -/
def Chunk.x_max (c : Chunk) : Nat := (c.position.x + 1) * CHUNK_SIZE

/-- Embedding of `y_min` cached field: `position.y * CHUNK_SIZE`. -/
def Chunk.y_min (c : Chunk) : Nat := c.position.y * CHUNK_SIZE

/-- Embedding of `y_max` cached field: `(position.y + 1) * CHUNK_SIZE`. -/
def Chunk.y_max (c : Chunk) : Nat := (c.position.y + 1) * CHUNK_SIZE

/-- Embedding of `Chunk::new`: an empty chunk at the given chunk position. -/
def Chunk.new (position : UVec2) : Chunk :=
  { position := position
    cells := fun _ _ => none
    dirty := false
    should_simulate := false }

/-- Embedding of `Chunk::is_in_bounds`: is the local position inside `[0, CHUNK_SIZE)²`? -/
def Chunk.is_in_bounds (_c : Chunk) (local_pos : UVec2) : Bool :=
  decide (local_pos.x < CHUNK_SIZE) && decide (local_pos.y < CHUNK_SIZE)

/-- Embedding of `Chunk::is_within_chunk`: is the world position inside this chunk? -/
def Chunk.is_within_chunk (c : Chunk) (world_pos : UVec2) : Bool :=
  decide (c.x_min ≤ world_pos.x) && decide (world_pos.x < c.x_max)
    && decide (c.y_min ≤ world_pos.y) && decide (world_pos.y < c.y_max)

/-- Embedding of `Chunk::get_particle`: `None` if out of bounds, else the cell content. -/
def Chunk.get_particle (c : Chunk) (local_pos : UVec2) : Option Particle :=
  if !(c.is_in_bounds local_pos) then none
  else c.cells local_pos.x local_pos.y

/-- Pointwise update of a cell array at `(a, b)`. -/
def set2 (f : Nat → Nat → Option Particle) (a b : Nat) (v : Option Particle) :
    Nat → Nat → Option Particle :=
  fun i j => if i = a ∧ j = b then v else f i j

/-- Embedding of `Chunk::set_particle`: no-op if out of bounds, else overwrite the cell and
set `dirty`. -/
def Chunk.set_particle (c : Chunk) (local_pos : UVec2) (particle : Option Particle) : Chunk :=
  if !(c.is_in_bounds local_pos) then c
  else { c with cells := set2 c.cells local_pos.x local_pos.y particle, dirty := true }

/-- Embedding of `Chunk::update_active_state`: `should_simulate` iff some cell is a Liquid. -/
def Chunk.update_active_state (c : Chunk) : Chunk :=
  { c with should_simulate :=
      (List.range CHUNK_SIZE).any (fun y =>
        (List.range CHUNK_SIZE).any (fun x =>
          match c.cells x y with
          | some (Particle.Liquid _) => true
          | _ => false)) }

/-- Embedding of `Chunk::trigger_refresh`. -/
def Chunk.trigger_refresh (c : Chunk) : Chunk :=
  if !c.dirty then c
  else { c.update_active_state with dirty := false }

/-! ## Map (src/world/map.rs) -/

/-- Embedding of `Map` from src/world/map.rs.  The `Vec<Vec<Chunk>>` chunk grid is a total
function indexed by chunk coordinates; `active_chunks` (a `HashSet<UVec2>`) is
a list. -/
structure Map where
  width : Nat
  height : Nat
  chunks : Nat → Nat → Chunk
  active_chunks : List UVec2

/-- Embedding of `Map::within_bounds`. -/
def Map.within_bounds (m : Map) (position : UVec2) : Bool :=
  decide (position.x < m.width) && decide (position.y < m.height)

/-- Embedding of `Map::get_particle_at`: PANICS (modelled as `Except.error`) when the world
position is outside the map's `width × height` bounds; otherwise delegates to
the containing chunk. -/
def Map.get_particle_at (m : Map) (position : UVec2) : Except String (Option Particle) :=
  if m.width ≤ position.x ∨ m.height ≤ position.y then
    .error "Position is out of bounds"
  else
    let chunk_pos := world_to_chunk position
    let local_pos := world_to_local position
    .ok ((m.chunks chunk_pos.x chunk_pos.y).get_particle local_pos)

/-- Embedding of `Map::set_particle_at`: silently returns when out of bounds, otherwise
updates the containing chunk. -/
def Map.set_particle_at (m : Map) (position : UVec2) (particle : Option Particle) : Map :=
  if m.width ≤ position.x ∨ m.height ≤ position.y then m
  else
    let chunk_pos := world_to_chunk position
    let local_pos := world_to_local position
    { m with chunks := fun cx cy =>
        if cx = chunk_pos.x ∧ cy = chunk_pos.y then
          (m.chunks chunk_pos.x chunk_pos.y).set_particle local_pos particle
        else m.chunks cx cy }

/-- Embedding of `Map::is_valid_position`: within bounds and empty.  (The Rust `&&`
short-circuits, so the panicking lookup is only reached in bounds.) -/
def Map.is_valid_position (m : Map) (position : UVec2) : Bool :=
  m.within_bounds position &&
    match m.get_particle_at position with
    | .ok none => true
    | _ => false

/-- Embedding of `Map::update_dirty_chunks`: refresh every dirty chunk in the active set. -/
def Map.update_dirty_chunks (m : Map) : Map :=
  m.active_chunks.foldl (fun acc cpos =>
    let ch := acc.chunks cpos.x cpos.y
    if ch.dirty then
      { acc with chunks := fun cx cy =>
          if cx = cpos.x ∧ cy = cpos.y then ch.trigger_refresh else acc.chunks cx cy }
    else acc) m

/-- Embedding of `update_active_chunks` from src/world/map.rs.  The focal chunk coordinate
(computed in Rust from the player transform via `screen_to_world` and
`world_vec2_to_chunk`, engine glue outside the simulation core) is the
parameter `center_chunk`.  Note the code clamps to `map.width - 1` /
`map.height - 1`, which are in particle units, not chunk units. -/
def update_active_chunks (m : Map) (center_chunk : UVec2) : Map :=
  let max_chunk_x := m.width - 1
  let max_chunk_y := m.height - 1
  let min_x := center_chunk.x - ACTIVE_CHUNK_RANGE
  let max_x := min (center_chunk.x + ACTIVE_CHUNK_RANGE) max_chunk_x
  let min_y := center_chunk.y - ACTIVE_CHUNK_RANGE
  let max_y := min (center_chunk.y + ACTIVE_CHUNK_RANGE) max_chunk_y
  let act := (List.range' min_x (max_x + 1 - min_x)).flatMap (fun x =>
    (List.range' min_y (max_y + 1 - min_y)).map (fun y => UVec2.mk x y))
  Map.update_dirty_chunks { m with active_chunks := act }

/-! ## Cross-chunk move queue (the `DashMap<UVec2, ParticleMove>` keyed by
target position, and the `entry`/`and_modify`/`or_insert` logic in
`Chunk::simulate`, src/world/chunk.rs lines 152-183) -/

/-- The Manhattan distance computed in `Chunk::simulate`:
`(source.x - target.x).abs() + (source.y - target.y).abs()` over `i32`. -/
def ParticleMove.distance (mv : ParticleMove) : Nat :=
  ((mv.source_pos.x : Int) - (mv.target_pos.x : Int)).natAbs
    + ((mv.source_pos.y : Int) - (mv.target_pos.y : Int)).natAbs

/-- Embedding of `DashMap::get` / iteration order: first entry with the given key. -/
def queue_lookup (q : List (UVec2 × ParticleMove)) (t : UVec2) : Option ParticleMove :=
  match q with
  | [] => none
  | e :: rest => if e.1 = t then some e.2 else queue_lookup rest t

/-- Embedding of `DashMap::contains_key`. -/
def queue_contains (q : List (UVec2 × ParticleMove)) (t : UVec2) : Bool :=
  (queue_lookup q t).isSome

/-- The `interchunk_queue.entry(target).and_modify(..).or_insert(..)` logic of
`Chunk::simulate`: insert when the target key is absent; when present, replace
the existing move exactly when the new move's Manhattan distance is strictly
smaller. -/
def queue_insert (q : List (UVec2 × ParticleMove)) (mv : ParticleMove) :
    List (UVec2 × ParticleMove) :=
  match q with
  | [] => [(mv.target_pos, mv)]
  | e :: rest =>
    if e.1 = mv.target_pos then
      (e.1, if mv.distance < e.2.distance then mv else e.2) :: rest
    else e :: queue_insert rest mv

/-! ## Sequential apply phase (`Map::apply_particle_moves`, src/world/map.rs) -/

/-- The `moves.sort_by_key(|m| (m.0.y, m.0.x))` comparison: lexicographic on
(target row, target column). -/
def move_le (a b : UVec2 × ParticleMove) : Bool :=
  decide (a.1.y < b.1.y) || (decide (a.1.y = b.1.y) && decide (a.1.x ≤ b.1.x))

/-- Stable insertion of an element into a sorted list: the new element lands
after every earlier element that compares `le` to it. -/
def insert_by {α : Type} (le : α → α → Bool) (a : α) : List α → List α
  | [] => [a]
  | b :: bs => if le b a then b :: insert_by le a bs else a :: b :: bs

/-- Model of the stable `sort_by_key` in `Map::apply_particle_moves` (queue
keys are distinct targets, so stability never matters for the result). -/
def sort_moves (q : List (UVec2 × ParticleMove)) : List (UVec2 × ParticleMove) :=
  q.foldl (fun acc a => insert_by move_le a acc) []

/-- Embedding of `Map::apply_particle_moves`: sort the collected queue by
target (row, then column), clear every move's source cell, then process each
move's target; the target lookup can panic (propagated as `Except.error`) on
an out-of-bounds target.  Note both branches of the occupancy check place the
particle. -/
def Map.apply_particle_moves (m : Map) (q : List (UVec2 × ParticleMove)) :
    Except String Map :=
  let moves := sort_moves q
  let cleared := moves.foldl (fun acc mv => acc.set_particle_at mv.2.source_pos none) m
  moves.foldlM (fun acc mv =>
    match acc.get_particle_at mv.1 with
    | .error e => .error e
    | .ok none => .ok (acc.set_particle_at mv.1 (some mv.2.particle))
    | .ok (some _) =>
      -- Rust comment says "try to find an alternative or keep the particle at
      -- its original position", but the statement executed is the same
      -- unconditional placement as the empty branch.
      .ok (acc.set_particle_at mv.1 (some mv.2.particle))) cleared

/-! ## World generator veins (`spawn_vein`, src/world/generator.rs) -/

/-- Embedding of `spawn_vein` from src/world/generator.rs.  The RNG draws are injected:
`draws` holds one `(offset_x, offset_y, place)` triple per loop iteration
(`vein_size = draws.length`, drawn from `3..=6` in Rust); `place` is the 70%
`random_bool` draw.  Neighbour cells are clipped to map bounds only. -/
def spawn_vein (position : UVec2) (particle : Particle) (map_width map_height : Nat)
    (draws : List (Int × Int × Bool)) : List (UVec2 × Particle) :=
  draws.foldl (fun acc d =>
    let offset_x := d.1
    let offset_y := d.2.1
    let place := d.2.2
    if offset_x = 0 ∧ offset_y = 0 then acc
    else
      let new_x := (position.x : Int) + offset_x
      let new_y := (position.y : Int) + offset_y
      if new_x < 0 ∨ new_y < 0 ∨ (map_width : Int) ≤ new_x ∨ (map_height : Int) ≤ new_y then
        acc
      else if place then acc ++ [(UVec2.mk new_x.toNat new_y.toNat, particle)]
      else acc) [(position, particle)]

/-! ## Fluid simulation (src/simulation/mod.rs and src/simulation/fluid.rs) -/

/-- Embedding of `SimulationContext` from src/simulation/mod.rs. -/
structure SimulationContext where
  map : Map
  original_chunk : Chunk
  chunk_queue : List (UVec2 × ParticleMove)
  new_cells : Nat → Nat → Option Particle

/-- Embedding of `validate_move_empty` from src/simulation/mod.rs: the position is empty on
the not-yet-updated map, and — within the originating chunk — also empty in the
in-progress new state, or — outside it — not already targeted by a queued
move. -/
def validate_move_empty (ctx : SimulationContext) (new_pos : UVec2) : Bool :=
  ctx.map.is_valid_position new_pos &&
    (if ctx.original_chunk.is_within_chunk new_pos then
      (ctx.new_cells (world_to_local new_pos).x (world_to_local new_pos).y).isNone
    else !(queue_contains ctx.chunk_queue new_pos))

/-- Embedding of `validate_move_interaction` from src/simulation/mod.rs. -/
def validate_move_interaction (rdir : Direction) (ctx : SimulationContext)
    (new_pos : UVec2) (particle : Particle) : Bool :=
  if !(ctx.map.within_bounds new_pos) then false
  else
    match ctx.map.get_particle_at new_pos with
    | .ok (some target_particle) =>
      if !(rules_contains rdir ⟨particle, target_particle⟩) then false
      else if ctx.original_chunk.is_within_chunk new_pos then
        match ctx.new_cells (world_to_local new_pos).x (world_to_local new_pos).y with
        | some new_target => rules_contains rdir ⟨particle, new_target⟩
        | none => false
      else !(queue_contains ctx.chunk_queue new_pos)
    | _ => false

/-- The particle produced by an interaction move in
`FluidSimulator::calculate_step`:
`INTERACTION_RULES.get(&pair).unwrap().result` where the pair's target is
`map.get_particle_at(new_pos).unwrap()`.  The fallbacks model the `unwrap`
of both lookups; they are unreachable because the call sites are guarded by
`validate_move_interaction`. -/
def interaction_result (rdir : Direction) (ctx : SimulationContext)
    (new_pos : UVec2) (fluid : Liquid) : Particle :=
  match ctx.map.get_particle_at new_pos with
  | .ok (some target) =>
    match rules_get rdir ⟨Particle.Liquid fluid, target⟩ with
    | some rule => rule.result
    | none => Particle.Liquid fluid
  | _ => Particle.Liquid fluid

/-- One candidate probe of `FluidSimulator::calculate_step`: try an empty move
first, then an interaction move (the `if validate_move_empty .. else if
validate_move_interaction ..` pattern repeated at every candidate cell). -/
def probe (rdir : Direction) (ctx : SimulationContext) (fluid : Liquid)
    (new_pos : UVec2) : Option (UVec2 × Particle) :=
  if validate_move_empty ctx new_pos then some (new_pos, Particle.Liquid fluid)
  else if validate_move_interaction rdir ctx new_pos (Particle.Liquid fluid) then
    some (new_pos, interaction_result rdir ctx new_pos fluid)
  else none

/-- The vertical scan of `FluidSimulator::calculate_step`:
`for offset in (0..viscosity).rev()`, so the fuel argument `n` covers offsets
`n-1, n-2, …, 1, 0` (it is called with `n = viscosity`); each offset probes
`(x, (y + buoyancy*offset).max(0))`. -/
def vertical_scan (rdir : Direction) (ctx : SimulationContext) (fluid : Liquid)
    (x y : Nat) : Nat → Option (UVec2 × Particle)
  | 0 => none
  | n + 1 =>
    let new_y := as_u32 ((y : Int) + fluid.get_buoyancy * (n : Int))
    match probe rdir ctx fluid (UVec2.mk x new_y) with
    | some r => some r
    | none => vertical_scan rdir ctx fluid x y n

/-- The diagonal scan of `FluidSimulator::calculate_step`, same descending
offset order; one step vertically (`y + buoyancy`), `±offset*buoyancy`
horizontally.  `coin` is the `rng.random_range(0..2) == 0` draw (true picks
the "right" candidate) used when both candidates validate. -/
def diagonal_scan (rdir : Direction) (ctx : SimulationContext) (fluid : Liquid)
    (x y : Nat) (coin : Bool) : Nat → Option (UVec2 × Particle)
  | 0 => none
  | n + 1 =>
    let new_y := as_u32 ((y : Int) + fluid.get_buoyancy)
    let new_x_right := as_u32 ((x : Int) + (n : Int) * fluid.get_buoyancy)
    let new_x_left := as_u32 ((x : Int) - (n : Int) * fluid.get_buoyancy)
    let pos_right := UVec2.mk new_x_right new_y
    let pos_left := UVec2.mk new_x_left new_y
    if validate_move_empty ctx pos_right && validate_move_empty ctx pos_left then
      some (if coin then (pos_right, Particle.Liquid fluid)
            else (pos_left, Particle.Liquid fluid))
    else if validate_move_interaction rdir ctx pos_right (Particle.Liquid fluid)
        && validate_move_interaction rdir ctx pos_left (Particle.Liquid fluid) then
      some (if coin then (pos_right, interaction_result rdir ctx pos_right fluid)
            else (pos_left, interaction_result rdir ctx pos_left fluid))
    else
      match probe rdir ctx fluid pos_right with
      | some r => some r
      | none =>
        match probe rdir ctx fluid pos_left with
        | some r => some r
        | none => diagonal_scan rdir ctx fluid x y coin n

/-- Embedding of `FluidSimulator::calculate_step` from src/simulation/fluid.rs: vertical
scan, then diagonal scan, then one step of horizontal creep in the stored bias
direction, else stay put with the direction flipped. -/
def calculate_step (rdir : Direction) (ctx : SimulationContext) (fluid : Liquid)
    (x y : Nat) (coin : Bool) : UVec2 × Particle :=
  match vertical_scan rdir ctx fluid x y fluid.get_viscosity.toNat with
  | some r => r
  | none =>
    match diagonal_scan rdir ctx fluid x y coin fluid.get_viscosity.toNat with
    | some r => r
    | none =>
      let new_x := as_u32 ((x : Int) + fluid.get_direction.as_int)
      match probe rdir ctx fluid (UVec2.mk new_x y) with
      | some r => r
      | none => (UVec2.mk x y, Particle.Liquid fluid.get_flipped_direction)

/-- Embedding of `handle_particle_movement` from src/simulation/mod.rs: queue an
inter-chunk `ParticleMove` when the destination leaves the originating chunk,
else write the particle into the chunk's new-state buffer. -/
def handle_particle_movement (original_chunk : Chunk)
    (new_cells : Nat → Nat → Option Particle) (source_pos new_pos : UVec2)
    (particle : Particle) :
    (Nat → Nat → Option Particle) × Option ParticleMove :=
  if !(original_chunk.is_within_chunk new_pos) then
    (new_cells, some ⟨source_pos, new_pos, particle⟩)
  else
    let lp := world_to_local new_pos
    (set2 new_cells lp.x lp.y (some particle), none)

/-- Embedding of `FluidSimulator::simulate` (the `Simulator<Liquid>` impl in
src/simulation/fluid.rs): convert the local position to world coordinates, run
`calculate_step`, and hand the result to `handle_particle_movement`. -/
def fluid_simulate (rdir : Direction) (m : Map) (c : Chunk)
    (q : List (UVec2 × ParticleMove)) (new_cells : Nat → Nat → Option Particle)
    (fluid : Liquid) (x y : Nat) (coin : Bool) :
    (Nat → Nat → Option Particle) × Option ParticleMove :=
  let world_pos := chunk_local_to_world c.position (UVec2.mk x y)
  let r := calculate_step rdir ⟨m, c, q, new_cells⟩ fluid world_pos.x world_pos.y coin
  handle_particle_movement c new_cells world_pos r.1 r.2

/-- One cell of the `Chunk::simulate` loop: empty cells are skipped, liquids
run the fluid simulator (threading the new-state buffer and the shared queue),
every other particle is copied into the new state unchanged. -/
def simulate_cell (rdir : Direction) (m : Map) (c : Chunk) (coin : Nat → Nat → Bool)
    (st : (Nat → Nat → Option Particle) × List (UVec2 × ParticleMove))
    (xy : Nat × Nat) :
    (Nat → Nat → Option Particle) × List (UVec2 × ParticleMove) :=
  match c.cells xy.1 xy.2 with
  | none => st
  | some (Particle.Liquid fluid) =>
    let r := fluid_simulate rdir m c st.2 st.1 fluid xy.1 xy.2 (coin xy.1 xy.2)
    match r.2 with
    | some mv => (r.1, queue_insert st.2 mv)
    | none => (r.1, st.2)
  | some p => (set2 st.1 xy.1 xy.2 (some p), st.2)

/-- The iteration order of `Chunk::simulate`: columns (`x`) outer, cells (`y`)
inner. -/
def cellList : List (Nat × Nat) :=
  (List.range CHUNK_SIZE).flatMap (fun x =>
    (List.range CHUNK_SIZE).map (fun y => (x, y)))

/-- Embedding of `Chunk::simulate` from src/world/chunk.rs: a no-op clone when
`should_simulate` is false; otherwise process every cell against the original
snapshot, write same-chunk destinations into a fresh new-state buffer, feed
cross-chunk destinations through the distance-priority queue insertion, swap in
the new state and mark the chunk dirty.  `coin` injects the per-cell RNG draw;
the function also returns the updated shared queue. -/
def Chunk.simulate (c : Chunk) (rdir : Direction) (m : Map)
    (q : List (UVec2 × ParticleMove)) (coin : Nat → Nat → Bool) :
    Chunk × List (UVec2 × ParticleMove) :=
  if !c.should_simulate then (c, q)
  else
    let st := cellList.foldl (simulate_cell rdir m c coin) ((fun _ _ => none), q)
    ({ c with cells := st.1, dirty := true }, st.2)

/-- Embedding of `Chunk::process_interactions` from src/world/chunk.rs.  Every cell of the
new state depends only on the original snapshot: the top row is copied; any
other cell with a populated cell directly above it and a registered rule for
the (unordered) pair is replaced by the rule's result; every other cell is
copied unchanged.  (The assignment `new_cells[x][y] = rule.result` stores the
rule's result particle in the `Option` cell.) -/
def Chunk.process_interactions (c : Chunk) (rdir : Direction) : Chunk :=
  let original := c.cells
  let new_cells : Nat → Nat → Option Particle := fun x y =>
    if x < CHUNK_SIZE ∧ y < CHUNK_SIZE then
      if y = CHUNK_SIZE - 1 then original x y
      else
        match original x (y + 1), original x y with
        | some particle_above, some particle_below =>
          match rules_get rdir ⟨particle_above, particle_below⟩ with
          | some rule => some rule.result
          | none => original x y
        | _, _ => original x y
    else none
  { c with cells := new_cells, dirty := true }

/-! ## Decidability of `Except` equality (needed to evaluate the panic-aware
lookups on concrete inputs) -/

instance instDecEqExcept {ε α : Type} [DecidableEq ε] [DecidableEq α] :
    DecidableEq (Except ε α)
  | .error x, .error y =>
    if h : x = y then .isTrue (congrArg Except.error h)
    else .isFalse (fun he => h (Except.error.inj he))
  | .ok x, .ok y =>
    if h : x = y then .isTrue (congrArg Except.ok h)
    else .isFalse (fun he => h (Except.ok.inj he))
  | .error _, .ok _ => .isFalse (fun he => Except.noConfusion he)
  | .ok _, .error _ => .isFalse (fun he => Except.noConfusion he)

/-! ## Concrete instances used by counterexamples and witnesses -/

/-- A 32×32-particle map (one logical chunk) with every cell empty. -/
def map32 : Map :=
  { width := 32, height := 32,
    chunks := fun cx cy => Chunk.new ⟨cx, cy⟩,
    active_chunks := [] }

/-- A single chunk holding one water particle at local (5, 10). -/
def loneWaterChunk : Chunk :=
  { position := ⟨0, 0⟩,
    cells := fun x y =>
      if x = 5 ∧ y = 10 then some (Particle.Liquid (.Water .Still)) else none,
    dirty := false, should_simulate := true }

/-- A 32×32 map whose only particle is the lone water of `loneWaterChunk`. -/
def loneWaterMap : Map :=
  { width := 32, height := 32,
    chunks := fun cx cy => if cx = 0 ∧ cy = 0 then loneWaterChunk else Chunk.new ⟨cx, cy⟩,
    active_chunks := [] }

/-- The simulation context seen by the lone water particle at the start of a
tick: prior map state, its own chunk, empty shared queue, fresh new-state
buffer. -/
def loneCtx : SimulationContext := ⟨loneWaterMap, loneWaterChunk, [], fun _ _ => none⟩

/-- A chunk with water at local (4, 1) directly above lava at local (4, 0). -/
def waterLavaChunk : Chunk :=
  { position := ⟨0, 0⟩,
    cells := fun x y =>
      if x = 4 ∧ y = 1 then some (Particle.Liquid (.Water .Still))
      else if x = 4 ∧ y = 0 then some (Particle.Liquid (.Lava .Still)) else none,
    dirty := false, should_simulate := true }

/-- A 64×64 map (2×2 logical chunks) holding a single stone at world (33, 0). -/
def stoneMap : Map :=
  { width := 64, height := 64,
    chunks := fun cx cy =>
      { Chunk.new ⟨cx, cy⟩ with cells := fun lx ly =>
          if cx = 1 ∧ cy = 0 ∧ lx = 1 ∧ ly = 0 then some (Particle.Common .Stone)
          else none },
    active_chunks := [] }

/-- A queued cross-chunk move of a water particle from world (30, 0) onto the
occupied cell (33, 0) of `stoneMap`. -/
def waterMove : ParticleMove := ⟨⟨30, 0⟩, ⟨33, 0⟩, Particle.Liquid (.Water .Still)⟩

/-- A queued move with source→target Manhattan distance 3. -/
def farMove : ParticleMove := ⟨⟨37, 0⟩, ⟨40, 0⟩, Particle.Liquid (.Water .Still)⟩

/-- A queued move to the same target with Manhattan distance 2. -/
def nearMove : ParticleMove := ⟨⟨40, 2⟩, ⟨40, 0⟩, Particle.Liquid (.Acid .Still)⟩

/-- A chunk holding a stone at local (3, 4) and a water particle at (5, 10). -/
def mixedChunk : Chunk :=
  { position := ⟨0, 0⟩,
    cells := fun x y =>
      if x = 3 ∧ y = 4 then some (Particle.Common .Stone)
      else if x = 5 ∧ y = 10 then some (Particle.Liquid (.Water .Still)) else none,
    dirty := false, should_simulate := true }

/-- The 32×32 map consistent with `mixedChunk` as its only chunk. -/
def mixedMap : Map :=
  { width := 32, height := 32,
    chunks := fun cx cy => if cx = 0 ∧ cy = 0 then mixedChunk else Chunk.new ⟨cx, cy⟩,
    active_chunks := [] }

/-! ## C5 — Common depth partition -/

/-- C5 (counterexample): at depth `u32::MAX` no Common variant's half-open
interval matches (`Stone`'s interval is `[12, u32::MAX)`, max exclusive), so
`get_exclusive_at_depth` reaches the zero-match fatal branch; the claim's
"every depth in the u32 domain" fails at this input. -/
theorem common_depth_u32max_is_fatal :
    Common.matching_variants U32_MAX = [] ∧
      Common.get_exclusive_at_depth U32_MAX =
        .error "Cannot get common particle at depth." := by decide

/-- C5 (amended): for every depth strictly below `u32::MAX`, exactly one
Common variant's half-open interval `[min_depth, max_depth)` contains the
depth (`Dirt` below 12, `Stone` from 12 up), and `get_exclusive_at_depth`
returns that variant without reaching either fatal branch. -/
theorem common_depth_partition (depth : Nat) (h : depth < U32_MAX) :
    (Common.matching_variants depth).length = 1 ∧
      Common.get_exclusive_at_depth depth =
        .ok (if depth < 12 then Common.Dirt else Common.Stone) := by
  have hm : Common.matching_variants depth =
      [if depth < 12 then Common.Dirt else Common.Stone] := by
    by_cases h12 : depth < 12
    · have h12' : ¬(12 ≤ depth) := by omega
      simp [Common.matching_variants, Common.iter, List.filter,
        Common.min_depth, Common.max_depth, h12, h12']
    · have h12' : (12 : Nat) ≤ depth := by omega
      simp [Common.matching_variants, Common.iter, List.filter,
        Common.min_depth, Common.max_depth, h12, h12', h]
  refine ⟨by rw [hm]; rfl, ?_⟩
  rw [Common.get_exclusive_at_depth, hm]

/-- C5 (witness): at depth 42 the partition picks Stone. -/
theorem common_depth_partition_witness :
    (Common.matching_variants 42).length = 1 ∧
      Common.get_exclusive_at_depth 42 =
        .ok (if 42 < 12 then Common.Dirt else Common.Stone) :=
  common_depth_partition 42 (by decide)

/-! ## C9 — Symmetric interaction lookup -/

/-- C9: interaction lookup is symmetric — for every pair of particles `A`,
`B` (and every direction baked into the rule table by the RNG), looking the
rule table up with `(source := A, target := B)` yields the same rule as
`(source := B, target := A)`, because the unordered pair equality used by the
lookup is order-insensitive. -/
theorem interaction_lookup_symmetric (rdir : Direction) (A B : Particle) :
    rules_get rdir ⟨A, B⟩ = rules_get rdir ⟨B, A⟩ := by
  have hswap : (fun e : InteractionPair × InteractionRule =>
        InteractionPair.pairEq e.1 ⟨A, B⟩)
      = fun e => InteractionPair.pairEq e.1 ⟨B, A⟩ := by
    funext e
    simp only [InteractionPair.pairEq]
    exact Bool.or_comm _ _
  unfold rules_get
  rw [hswap]

/-! ## C6 — Out-of-range lookups -/

/-- C6 (counterexample): `Map::get_particle_at` at the out-of-bounds world
position (32, 0) of a 32×32 map does not return an empty result — it panics
(the `Except.error` branch), refuting the claim's "Map::get_particle_at
returns an empty result … without panicking". -/
theorem map_oob_lookup_is_fatal :
    map32.get_particle_at ⟨32, 0⟩ = .error "Position is out of bounds" ∧
      ∀ o, map32.get_particle_at ⟨32, 0⟩ ≠ .ok o :=
  ⟨rfl, fun _ h => Except.noConfusion h⟩

/-- C6 (amended): `Chunk::get_particle` returns `None` for every local
position outside `[0, CHUNK_SIZE)²` without panicking, but `Map::get_particle_at`
panics for every world position outside the map's `width × height` bounds. -/
theorem oob_lookup_contract :
    (∀ (c : Chunk) (p : UVec2), CHUNK_SIZE ≤ p.x ∨ CHUNK_SIZE ≤ p.y →
        c.get_particle p = none) ∧
      ∀ (m : Map) (p : UVec2), m.width ≤ p.x ∨ m.height ≤ p.y →
        m.get_particle_at p = .error "Position is out of bounds" := by
  constructor
  · intro c p h
    have hb : c.is_in_bounds p = false := by
      simp only [Chunk.is_in_bounds, Bool.and_eq_false_iff, decide_eq_false_iff_not]
      omega
    simp [Chunk.get_particle, hb]
  · intro m p h
    rw [Map.get_particle_at, if_pos h]

/-- C6 (witness): concrete out-of-range lookups on an empty chunk and on
`map32`. -/
theorem oob_lookup_contract_witness :
    (Chunk.new ⟨0, 0⟩).get_particle ⟨32, 0⟩ = none ∧
      map32.get_particle_at ⟨40, 1⟩ = .error "Position is out of bounds" :=
  ⟨oob_lookup_contract.1 (Chunk.new ⟨0, 0⟩) ⟨32, 0⟩ (Or.inl (by decide)),
    oob_lookup_contract.2 map32 ⟨40, 1⟩ (Or.inl (by decide))⟩

/-! ## C3 — Active-region tracker versus the chunk grid -/

set_option maxRecDepth 8000

/-- C3: on a 32×32-particle map (a single logical chunk, so every chunk
coordinate must satisfy `cx < ceil(32/CHUNK_SIZE) = 1`), running the
active-region tracker with the focal chunk (0, 0) inserts the chunk
coordinate (12, 12) into `active_chunks`: the code clamps the activation
rectangle to `map.width - 1` (particle units) rather than the chunk-grid
bound its own comment announces, refuting the claimed invariant. -/
theorem active_chunks_escape_chunk_grid :
    UVec2.mk 12 12 ∈ (update_active_chunks map32 ⟨0, 0⟩).active_chunks ∧
      ¬((12 : Nat) < (map32.width + CHUNK_SIZE - 1) / CHUNK_SIZE) := by decide

/-! ## C7 — Vein placement versus worker column ranges -/

/-- C7: a worker assigned columns `[32, 64)` that rolls an ore at world
(32, 50) can, through `spawn_vein`'s `(-1, 0)` neighbour offset (placed by the
70% roll), write a vein cell at world (31, 50) — column `31 < 32` lies outside
the worker's assigned range, because `spawn_vein` clips neighbours to map
bounds only, never to the worker's column range. -/
theorem vein_escapes_worker_columns :
    UVec2.mk 31 50 ∈
        (spawn_vein ⟨32, 50⟩ (Particle.Special (.Ore .Gold)) 64 64
          [(-1, 0, true), (0, 0, true), (0, 0, false)]).map Prod.fst ∧
      ¬((32 : Nat) ≤ 31) := by decide

/-! ## C2 — The sequential apply phase -/

/-- C2: in `stoneMap` the cell (33, 0) holds a stone that is no move's
source; applying a queued water move targeting (33, 0) overwrites the stone
with the water (both branches of the occupancy check place the particle), so
the stone vanishes — refuting the claim that an occupied target cell is left
unchanged. -/
theorem apply_moves_overwrites_occupied_target :
    stoneMap.get_particle_at ⟨33, 0⟩ = .ok (some (Particle.Common .Stone)) ∧
      (stoneMap.apply_particle_moves [(⟨33, 0⟩, waterMove)]).map
          (fun m => m.get_particle_at ⟨33, 0⟩) =
        .ok (.ok (some (Particle.Liquid (.Water .Still)))) :=
  ⟨rfl, rfl⟩

/-! ## C4 — Replace interactions -/

/-- C4 (counterexample): with water at (4, 1) directly above lava at (4, 0),
`process_interactions` places the Replace rule's result (obsidian) in the
target cell (4, 0), but the source cell (4, 1) still holds the water — it does
not become empty, refuting the claim that both cells are consumed. -/
theorem replace_rule_keeps_source_concrete :
    (waterLavaChunk.process_interactions .Left).cells 4 0 =
        some (Particle.Solid .Obsidian) ∧
      (waterLavaChunk.process_interactions .Left).cells 4 1 =
        some (Particle.Liquid (.Water .Still)) :=
  ⟨rfl, rfl⟩

/-- C4 (amended): when `process_interactions` finds a populated cell at
(x, y+1) above a populated cell at (x, y) whose unordered pair has a
registered rule, the rule's result occupies the target cell (x, y), while the
source cell (x, y+1) retains its particle (it is not consumed; the hypothesis
`htop` says no rule fires onto the source cell from above). -/
theorem process_interactions_replace (c : Chunk) (rdir : Direction)
    (x y : Nat) (above below : Particle) (rule : InteractionRule)
    (hx : x < CHUNK_SIZE) (hy : y < CHUNK_SIZE - 1)
    (ha : c.cells x (y + 1) = some above) (hb : c.cells x y = some below)
    (hr : rules_get rdir ⟨above, below⟩ = some rule)
    (htop : y + 1 = CHUNK_SIZE - 1 ∨
      ∀ a2, c.cells x (y + 2) = some a2 → rules_get rdir ⟨a2, above⟩ = none) :
    (c.process_interactions rdir).cells x y = some rule.result ∧
      (c.process_interactions rdir).cells x (y + 1) = some above := by
  constructor
  · simp only [Chunk.process_interactions]
    rw [if_pos ⟨hx, by omega⟩, if_neg (by omega), ha, hb]
    simp [hr]
  · simp only [Chunk.process_interactions]
    by_cases h31 : y + 1 = CHUNK_SIZE - 1
    · rw [if_pos ⟨hx, by omega⟩, if_pos h31]
      exact ha
    · have hno : ∀ a2, c.cells x (y + 2) = some a2 → rules_get rdir ⟨a2, above⟩ = none :=
        htop.resolve_left h31
      rw [if_pos ⟨hx, by omega⟩, if_neg h31]
      cases h2 : c.cells x (y + 1 + 1) with
      | none =>
        rw [ha]
      | some a2 =>
        rw [ha]
        simp [hno a2 h2]

/-- C4 (witness): the water-over-lava Replace rule instantiates the amended
theorem at (4, 0) of `waterLavaChunk`. -/
theorem process_interactions_replace_witness :
    rules_get .Left ⟨Particle.Liquid (.Water .Still), Particle.Liquid (.Lava .Still)⟩ =
        some ⟨.Replace, Particle.Solid .Obsidian⟩ ∧
      (waterLavaChunk.process_interactions .Left).cells 4 0 =
          some (Particle.Solid .Obsidian) ∧
        (waterLavaChunk.process_interactions .Left).cells 4 1 =
          some (Particle.Liquid (.Water .Still)) := by
  refine ⟨by decide, ?_⟩
  exact process_interactions_replace waterLavaChunk .Left 4 0
    (Particle.Liquid (.Water .Still)) (Particle.Liquid (.Lava .Still))
    ⟨.Replace, Particle.Solid .Obsidian⟩ (by decide) (by decide) (by decide)
    (by decide) (by decide)
    (Or.inr (fun a2 h2 => by simp [waterLavaChunk] at h2))

/-! ## C8 — Cross-chunk conflict resolution by Manhattan distance -/

/-- Inserting a move leaves every other target's entry unchanged. -/
theorem queue_lookup_insert_ne (q : List (UVec2 × ParticleMove)) (mv : ParticleMove)
    (t : UVec2) (h : t ≠ mv.target_pos) :
    queue_lookup (queue_insert q mv) t = queue_lookup q t := by
  induction q with
  | nil =>
    simp only [queue_insert, queue_lookup]
    rw [if_neg (fun hh => h hh.symm)]
  | cons e rest ih =>
    simp only [queue_insert]
    by_cases he : e.1 = mv.target_pos
    · rw [if_pos he]
      simp only [queue_lookup]
      rw [if_neg (fun hh => h (hh.symm.trans he))]
      rw [if_neg (fun hh => h (hh.symm.trans he))]
    · rw [if_neg he]
      simp only [queue_lookup]
      by_cases ht : e.1 = t
      · rw [if_pos ht, if_pos ht]
      · rw [if_neg ht, if_neg ht]
        exact ih

/-- Looking up the inserted move's own target after an insertion: an absent
key is freshly inserted; a present entry is replaced exactly when the new
move's distance is strictly smaller. -/
theorem queue_lookup_insert_self (q : List (UVec2 × ParticleMove)) (mv : ParticleMove) :
    queue_lookup (queue_insert q mv) mv.target_pos =
      some (match queue_lookup q mv.target_pos with
        | none => mv
        | some e => if mv.distance < e.distance then mv else e) := by
  induction q with
  | nil => simp [queue_insert, queue_lookup]
  | cons e rest ih =>
    simp only [queue_insert]
    by_cases he : e.1 = mv.target_pos
    · rw [if_pos he]
      simp only [queue_lookup]
      rw [if_pos he, if_pos he]
    · rw [if_neg he]
      simp only [queue_lookup]
      rw [if_neg he, if_neg he]
      exact ih

/-- Folding further insertions never increases the distance of the entry
retained at a target. -/
theorem queue_foldl_mono (moves : List ParticleMove) :
    ∀ (q : List (UVec2 × ParticleMove)) (t : UVec2) (e : ParticleMove),
      queue_lookup q t = some e →
      ∃ r, queue_lookup (moves.foldl queue_insert q) t = some r ∧
        r.distance ≤ e.distance := by
  induction moves with
  | nil => exact fun q t e h => ⟨e, h, le_refl _⟩
  | cons m ms ih =>
    intro q t e h
    rw [List.foldl_cons]
    by_cases ht : t = m.target_pos
    · subst ht
      have h1 : queue_lookup (queue_insert q m) m.target_pos =
          some (if m.distance < e.distance then m else e) := by
        rw [queue_lookup_insert_self, h]
      obtain ⟨r, hr, hle⟩ := ih (queue_insert q m) m.target_pos _ h1
      refine ⟨r, hr, le_trans hle ?_⟩
      by_cases hd : m.distance < e.distance
      · rw [if_pos hd]; omega
      · rw [if_neg hd]
    · have h1 : queue_lookup (queue_insert q m) t = some e := by
        rw [queue_lookup_insert_ne q m t ht]; exact h
      exact ih _ _ _ h1

/-- The entry retained at a target after folding a batch of insertions has
minimal distance among the batch's moves to that target. -/
theorem queue_foldl_min (moves : List ParticleMove) :
    ∀ (q : List (UVec2 × ParticleMove)) (t : UVec2) (mv : ParticleMove),
      queue_lookup (moves.foldl queue_insert q) t = some mv →
      ∀ mv' ∈ moves, mv'.target_pos = t → mv.distance ≤ mv'.distance := by
  induction moves with
  | nil => intro q t mv _ mv' hmem; exact absurd hmem (List.not_mem_nil _)
  | cons m ms ih =>
    intro q t mv h mv' hmem htgt
    rw [List.foldl_cons] at h
    rcases List.mem_cons.1 hmem with hm | hmem'
    · subst hm
      have h1 : ∃ E, queue_lookup (queue_insert q mv') t = some E ∧
          E.distance ≤ mv'.distance := by
        rw [← htgt, queue_lookup_insert_self q mv']
        cases hq : queue_lookup q mv'.target_pos with
        | none => exact ⟨mv', rfl, le_refl _⟩
        | some e =>
          by_cases hd : mv'.distance < e.distance
          · refine ⟨mv', ?_, le_refl _⟩
            show some (if mv'.distance < e.distance then mv' else e) = some mv'
            rw [if_pos hd]
          · refine ⟨e, ?_, by omega⟩
            show some (if mv'.distance < e.distance then mv' else e) = some e
            rw [if_neg hd]
      obtain ⟨E, hE, hEle⟩ := h1
      obtain ⟨r, hr, hrle⟩ := queue_foldl_mono ms (queue_insert q mv') t E hE
      rw [h] at hr
      injection hr with hr'
      subst hr'
      omega
    · exact ih (queue_insert q m) t mv h mv' hmem' htgt

/-- C8: when several cross-chunk moves produced in one tick target the same
position, the move retained in the shared queue has minimal Manhattan
source→target distance among them (first conjunct, over any arrival order
folded through the `entry`/`and_modify`/`or_insert` logic), and a later-queued
move replaces the existing entry exactly when its distance is strictly smaller
(second conjunct). -/
theorem queue_keeps_min_distance :
    (∀ (moves : List ParticleMove) (t : UVec2) (mv : ParticleMove),
        queue_lookup (moves.foldl queue_insert []) t = some mv →
        ∀ mv' ∈ moves, mv'.target_pos = t → mv.distance ≤ mv'.distance) ∧
      ∀ (q : List (UVec2 × ParticleMove)) (mv e : ParticleMove),
        queue_lookup q mv.target_pos = some e →
        queue_lookup (queue_insert q mv) mv.target_pos =
          some (if mv.distance < e.distance then mv else e) := by
  constructor
  · exact fun moves t mv h => queue_foldl_min moves [] t mv h
  · intro q mv e h
    rw [queue_lookup_insert_self, h]

/-- C8 (witness): two moves contending for target (40, 0) — distances 3
(`farMove`) and 2 (`nearMove`); the retained entry is the nearer one, and the
insertion of the nearer over the farther replaces it. -/
theorem queue_keeps_min_distance_witness :
    nearMove.distance ≤ farMove.distance ∧
      queue_lookup (queue_insert [(⟨40, 0⟩, farMove)] nearMove) nearMove.target_pos =
        some (if nearMove.distance < farMove.distance then nearMove else farMove) :=
  ⟨queue_keeps_min_distance.1 [farMove, nearMove] ⟨40, 0⟩ nearMove (by decide)
      farMove (by decide) (by decide),
    queue_keeps_min_distance.2 [(⟨40, 0⟩, farMove)] nearMove farMove (by decide)⟩

/-! ## C1 — Vertical scan of the fluid step -/

/-- The `.max(0)` clamp agrees with `Int.toNat`. -/
theorem as_u32_eq_toNat (i : Int) : as_u32 i = i.toNat := by
  unfold as_u32
  omega

/-- A successful (non-panicking) map lookup implies the position was within
bounds. -/
theorem get_particle_at_ok_within (m : Map) (p : UVec2) (o : Option Particle)
    (h : m.get_particle_at p = .ok o) : m.within_bounds p = true := by
  unfold Map.get_particle_at at h
  by_cases hb : m.width ≤ p.x ∨ m.height ≤ p.y
  · rw [if_pos hb] at h
    exact Except.noConfusion h
  · unfold Map.within_bounds
    push_neg at hb
    simp [hb.1, hb.2]

/-- Sufficient conditions for `validate_move_empty`: the prior map state is
empty there, the position is inside the originating chunk, and the new-state
buffer is empty there. -/
theorem validate_move_empty_of (ctx : SimulationContext) (p : UVec2)
    (h1 : ctx.map.get_particle_at p = .ok none)
    (h2 : ctx.original_chunk.is_within_chunk p = true)
    (h3 : ctx.new_cells (world_to_local p).x (world_to_local p).y = none) :
    validate_move_empty ctx p = true := by
  unfold validate_move_empty Map.is_valid_position
  rw [get_particle_at_ok_within _ _ _ h1, h1, h2]
  simp [h3]

/-- C1 (counterexample): a lone water particle (viscosity 5, buoyancy −1) at
(5, 10) above an empty column deeper than its viscosity moves to (5, 6) —
exactly 4 = viscosity − 1 cells down, not the 5 cells the claim asserts,
because the scan `for offset in (0..viscosity).rev()` starts at offset
`viscosity - 1`, not `viscosity`. -/
theorem lone_water_falls_four_not_five :
    calculate_step .Left loneCtx (.Water .Still) 5 10 true =
        (⟨5, 6⟩, Particle.Liquid (.Water .Still)) ∧
      (UVec2.mk 5 6) ≠ (UVec2.mk 5 (10 - 5)) := by
  refine ⟨by decide, by decide⟩

/-- C1 (amended): for every liquid with buoyancy −1 and viscosity `v` at
(x, y) above an empty in-chunk column of height at least `v - 1` (and `y` at
least `v - 1`, so the floor clip does not bite), the vertical scan of one
simulation step tries the offsets `v-1, v-2, …, 1, 0` farthest first and
moves the liquid to the farthest empty cell: the liquid moves exactly `v - 1`
cells down in that tick. -/
theorem vertical_scan_falls_viscosity_minus_one (rdir : Direction)
    (ctx : SimulationContext) (fluid : Liquid) (x y : Nat) (coin : Bool)
    (hv : 2 ≤ fluid.get_viscosity.toNat)
    (hy : fluid.get_viscosity.toNat - 1 ≤ y)
    (hmap : ∀ k, k < fluid.get_viscosity.toNat → 1 ≤ k →
      ctx.map.get_particle_at ⟨x, y - k⟩ = .ok none)
    (hchunk : ∀ k, k < fluid.get_viscosity.toNat → 1 ≤ k →
      ctx.original_chunk.is_within_chunk ⟨x, y - k⟩ = true)
    (hnc : ∀ a b, ctx.new_cells a b = none) :
    calculate_step rdir ctx fluid x y coin =
      (⟨x, y - (fluid.get_viscosity.toNat - 1)⟩, Particle.Liquid fluid) := by
  obtain ⟨n, hn⟩ : ∃ n, fluid.get_viscosity.toNat = n + 1 :=
    ⟨fluid.get_viscosity.toNat - 1, by omega⟩
  have hn1 : 1 ≤ n := by omega
  have hny : n ≤ y := by omega
  have hpos : as_u32 ((y : Int) + fluid.get_buoyancy * (n : Int)) = y - n := by
    rw [as_u32_eq_toNat]
    unfold Liquid.get_buoyancy
    omega
  have hval : validate_move_empty ctx ⟨x, y - n⟩ = true :=
    validate_move_empty_of ctx _ (hmap n (by omega) hn1) (hchunk n (by omega) hn1)
      (hnc _ _)
  have hprobe : probe rdir ctx fluid ⟨x, y - n⟩ =
      some (⟨x, y - n⟩, Particle.Liquid fluid) := by
    unfold probe
    rw [hval]
    simp
  have hscan : vertical_scan rdir ctx fluid x y (n + 1) =
      some (⟨x, y - n⟩, Particle.Liquid fluid) := by
    unfold vertical_scan
    simp only [hpos, hprobe]
  unfold calculate_step
  rw [hn, hscan]
  simp

/-- C1 (witness): the amended theorem instantiated on the lone water particle
of `loneCtx`; water's viscosity is 5, so it lands 4 cells down at (5, 6). -/
theorem vertical_scan_falls_witness :
    calculate_step .Right loneCtx (.Water .Still) 5 10 false =
      (⟨5, 10 - ((Liquid.Water .Still).get_viscosity.toNat - 1)⟩,
        Particle.Liquid (.Water .Still)) :=
  vertical_scan_falls_viscosity_minus_one .Right loneCtx (.Water .Still) 5 10 false
    (by decide) (by decide)
    (by decide) (by decide) (fun _ _ => rfl)

/-! ## C10 — `Chunk::simulate` never disturbs non-liquid particles -/

/-- Direction-insensitive equality with a liquid forces the other side to be
a liquid. -/
theorem beq_liquid_target (w : Liquid) (t : Particle)
    (h : Particle.beq (Particle.Liquid w) t = true) :
    ∃ l, t = Particle.Liquid l := by
  cases t with
  | Common c => simp [Particle.beq] at h
  | Special s => simp [Particle.beq] at h
  | Liquid l => exact ⟨l, rfl⟩
  | Solid s => simp [Particle.beq] at h

/-- A pair that matches a liquid–liquid key consists of two liquids. -/
theorem pairEq_both_liquid (a b : Liquid) (s t : Particle)
    (h : InteractionPair.pairEq ⟨Particle.Liquid a, Particle.Liquid b⟩ ⟨s, t⟩ = true) :
    (∃ l, s = Particle.Liquid l) ∧ ∃ l, t = Particle.Liquid l := by
  unfold InteractionPair.pairEq at h
  rw [Bool.or_eq_true, Bool.and_eq_true, Bool.and_eq_true] at h
  rcases h with ⟨h1, h2⟩ | ⟨h1, h2⟩
  · exact ⟨beq_liquid_target a s h1, beq_liquid_target b t h2⟩
  · exact ⟨beq_liquid_target b s h2, beq_liquid_target a t h1⟩

/-- Every registered interaction pair is liquid–liquid (the current rule
table only registers water–lava and water–acid). -/
theorem rules_pair_liquid (rdir : Direction) (s t : Particle)
    (h : rules_contains rdir ⟨s, t⟩ = true) :
    (∃ l, s = Particle.Liquid l) ∧ ∃ l, t = Particle.Liquid l := by
  unfold rules_contains INTERACTION_RULES at h
  by_cases h1 : InteractionPair.pairEq
      ⟨Particle.Liquid (.Water .Still), Particle.Liquid (.Lava .Still)⟩ ⟨s, t⟩ = true
  · exact pairEq_both_liquid _ _ _ _ h1
  · by_cases h2 : InteractionPair.pairEq
        ⟨Particle.Liquid (.Water .Still), Particle.Liquid (.Acid .Still)⟩ ⟨s, t⟩ = true
    · exact pairEq_both_liquid _ _ _ _ h2
    · exfalso
      rw [Bool.not_eq_true] at h1 h2
      simp [List.find?, h1, h2] at h

/-- A validated empty move's destination is empty in the prior map state. -/
theorem validate_empty_map_none (ctx : SimulationContext) (p : UVec2)
    (h : validate_move_empty ctx p = true) :
    ctx.map.get_particle_at p = .ok none := by
  unfold validate_move_empty Map.is_valid_position at h
  rw [Bool.and_eq_true, Bool.and_eq_true] at h
  obtain ⟨⟨_, hm⟩, _⟩ := h
  cases hg : ctx.map.get_particle_at p with
  | error e => rw [hg] at hm; exact Bool.noConfusion hm
  | ok o =>
    cases o with
    | none => rfl
    | some pp => rw [hg] at hm; exact Bool.noConfusion hm

/-- A validated interaction move's destination holds a liquid in the prior
map state (by `rules_pair_liquid`). -/
theorem validate_inter_map_liquid (rdir : Direction) (ctx : SimulationContext)
    (p : UVec2) (particle : Particle)
    (h : validate_move_interaction rdir ctx p particle = true) :
    ∃ l, ctx.map.get_particle_at p = .ok (some (Particle.Liquid l)) := by
  unfold validate_move_interaction at h
  split at h
  · exact Bool.noConfusion h
  · split at h
    · next tp hg =>
        split at h
        · exact Bool.noConfusion h
        · next hr =>
            have hr' : rules_contains rdir ⟨particle, tp⟩ = true := by
              revert hr
              cases rules_contains rdir ⟨particle, tp⟩ <;> simp
            obtain ⟨_, l, hl⟩ := rules_pair_liquid rdir particle tp hr'
            exact ⟨l, by rw [hg, hl]⟩
    · exact Bool.noConfusion h

/-- A successful probe keeps the probed position, which is empty or holds a
liquid in the prior map state. -/
theorem probe_cases (rdir : Direction) (ctx : SimulationContext) (fluid : Liquid)
    (pos : UVec2) (r : UVec2 × Particle) (h : probe rdir ctx fluid pos = some r) :
    r.1 = pos ∧ (ctx.map.get_particle_at pos = .ok none ∨
      ∃ l, ctx.map.get_particle_at pos = .ok (some (Particle.Liquid l))) := by
  unfold probe at h
  by_cases h1 : validate_move_empty ctx pos = true
  · rw [if_pos h1] at h
    injection h with h'
    exact ⟨by rw [← h'], Or.inl (validate_empty_map_none ctx pos h1)⟩
  · rw [if_neg h1] at h
    by_cases h2 : validate_move_interaction rdir ctx pos (Particle.Liquid fluid) = true
    · rw [if_pos h2] at h
      injection h with h'
      exact ⟨by rw [← h'], Or.inr (validate_inter_map_liquid rdir ctx pos _ h2)⟩
    · rw [if_neg h2] at h
      exact Option.noConfusion h

/-- Any destination produced by the vertical scan is empty or holds a liquid
in the prior map state. -/
theorem vertical_scan_cases (rdir : Direction) (ctx : SimulationContext)
    (fluid : Liquid) (x y : Nat) :
    ∀ (n : Nat) (r : UVec2 × Particle), vertical_scan rdir ctx fluid x y n = some r →
      ctx.map.get_particle_at r.1 = .ok none ∨
        ∃ l, ctx.map.get_particle_at r.1 = .ok (some (Particle.Liquid l)) := by
  intro n
  induction n with
  | zero => intro r h; exact Option.noConfusion h
  | succ n ih =>
    intro r h
    simp only [vertical_scan] at h
    split at h
    · injection h with h'
      subst h'
      obtain ⟨he, hc⟩ := probe_cases _ _ _ _ _ (by assumption)
      rw [he]
      exact hc
    · exact ih r h

/-- Any destination produced by the diagonal scan is empty or holds a liquid
in the prior map state. -/
theorem diagonal_scan_cases (rdir : Direction) (ctx : SimulationContext)
    (fluid : Liquid) (x y : Nat) (coin : Bool) :
    ∀ (n : Nat) (r : UVec2 × Particle),
      diagonal_scan rdir ctx fluid x y coin n = some r →
      ctx.map.get_particle_at r.1 = .ok none ∨
        ∃ l, ctx.map.get_particle_at r.1 = .ok (some (Particle.Liquid l)) := by
  intro n
  induction n with
  | zero => intro r h; exact Option.noConfusion h
  | succ n ih =>
    intro r h
    simp only [diagonal_scan] at h
    split at h
    · -- both candidates empty
      next hb =>
        rw [Bool.and_eq_true] at hb
        injection h with h'
        subst h'
        cases coin with
        | true =>
          rw [if_pos rfl]
          exact Or.inl (validate_empty_map_none _ _ hb.1)
        | false =>
          rw [if_neg (by simp)]
          exact Or.inl (validate_empty_map_none _ _ hb.2)
    · split at h
      · -- both candidates interact
        next hb =>
          rw [Bool.and_eq_true] at hb
          injection h with h'
          subst h'
          cases coin with
          | true =>
            rw [if_pos rfl]
            exact Or.inr (validate_inter_map_liquid _ _ _ _ hb.1)
          | false =>
            rw [if_neg (by simp)]
            exact Or.inr (validate_inter_map_liquid _ _ _ _ hb.2)
      · -- probe right, probe left, recurse
        split at h
        · injection h with h'
          subst h'
          obtain ⟨he, hc⟩ := probe_cases _ _ _ _ _ (by assumption)
          rw [he]
          exact hc
        · split at h
          · injection h with h'
            subst h'
            obtain ⟨he, hc⟩ := probe_cases _ _ _ _ _ (by assumption)
            rw [he]
            exact hc
          · exact ih r h

/-- The destination of a full `calculate_step` is the particle's own position
(the stay-and-flip fallback), or a cell that is empty or holds a liquid in the
prior map state. -/
theorem calculate_step_cases (rdir : Direction) (ctx : SimulationContext)
    (fluid : Liquid) (x y : Nat) (coin : Bool) :
    (calculate_step rdir ctx fluid x y coin).1 = UVec2.mk x y ∨
      ctx.map.get_particle_at (calculate_step rdir ctx fluid x y coin).1 = .ok none ∨
        ∃ l, ctx.map.get_particle_at (calculate_step rdir ctx fluid x y coin).1 =
          .ok (some (Particle.Liquid l)) := by
  simp only [calculate_step]
  cases hv : vertical_scan rdir ctx fluid x y fluid.get_viscosity.toNat with
  | some r => exact Or.inr (vertical_scan_cases rdir ctx fluid x y _ r hv)
  | none =>
    cases hd : diagonal_scan rdir ctx fluid x y coin fluid.get_viscosity.toNat with
    | some r => exact Or.inr (diagonal_scan_cases rdir ctx fluid x y coin _ r hd)
    | none =>
      cases hp : probe rdir ctx fluid
          (UVec2.mk (as_u32 ((x : Int) + fluid.get_direction.as_int)) y) with
      | some r =>
        obtain ⟨he, hc⟩ := probe_cases _ _ _ _ _ hp
        rw [he]
        exact Or.inr hc
      | none => exact Or.inl rfl

/-- Reconstructing a world position inside a chunk from its local
coordinates. -/
theorem within_chunk_world (c : Chunk) (wp : UVec2)
    (h : c.is_within_chunk wp = true) :
    chunk_local_to_world c.position (world_to_local wp) = wp := by
  unfold Chunk.is_within_chunk Chunk.x_min Chunk.x_max Chunk.y_min Chunk.y_max at h
  rw [Bool.and_eq_true, Bool.and_eq_true, Bool.and_eq_true] at h
  obtain ⟨⟨⟨h1, h2⟩, h3⟩, h4⟩ := h
  rw [decide_eq_true_eq] at h1 h2 h3 h4
  unfold chunk_local_to_world world_to_local CHUNK_SIZE at *
  cases wp with
  | mk wx wy =>
    dsimp only at h1 h2 h3 h4 ⊢
    rw [UVec2.mk.injEq]
    constructor <;> omega

/-- World coordinates within one chunk are injective in the local
coordinates. -/
theorem chunk_world_inj (pos : UVec2) (a b lx ly : Nat)
    (h : chunk_local_to_world pos ⟨a, b⟩ = chunk_local_to_world pos ⟨lx, ly⟩) :
    a = lx ∧ b = ly := by
  unfold chunk_local_to_world CHUNK_SIZE at h
  rw [UVec2.mk.injEq] at h
  dsimp only at h
  omega

/-- One fluid's simulation step never writes into the new-state slot of a
cell that held a non-liquid particle in the prior state: its destination is
validated against the prior map state, where that cell is occupied by the
non-liquid, and registered interactions only target liquids. -/
theorem fluid_simulate_preserves (rdir : Direction) (m : Map) (c : Chunk)
    (q : List (UVec2 × ParticleMove)) (nc : Nat → Nat → Option Particle)
    (fluid : Liquid) (lx ly : Nat) (coin : Bool) (a b : Nat) (p : Particle)
    (hfl : c.cells lx ly = some (Particle.Liquid fluid))
    (hp : c.cells a b = some p) (hnl : ∀ l, p ≠ Particle.Liquid l)
    (hmc : m.get_particle_at (chunk_local_to_world c.position ⟨a, b⟩) = .ok (some p)) :
    (fluid_simulate rdir m c q nc fluid lx ly coin).1 a b = nc a b := by
  simp only [fluid_simulate, handle_particle_movement]
  set w := chunk_local_to_world c.position (UVec2.mk lx ly) with hwdef
  set r := calculate_step rdir ⟨m, c, q, nc⟩ fluid w.x w.y coin with hrdef
  cases hw : c.is_within_chunk r.1 with
  | false => rfl
  | true =>
    have hne : ¬(a = (world_to_local r.1).x ∧ b = (world_to_local r.1).y) := by
      rintro ⟨hea, heb⟩
      have hab : (⟨a, b⟩ : UVec2) = world_to_local r.1 := by rw [hea, heb]
      have hworld : chunk_local_to_world c.position ⟨a, b⟩ = r.1 := by
        rw [hab]
        exact within_chunk_world c r.1 hw
      rcases calculate_step_cases rdir ⟨m, c, q, nc⟩ fluid w.x w.y coin with
        hcase | hcase | ⟨l, hcase⟩
      · -- stay-in-place fallback: the destination is the liquid's own cell
        rw [← hrdef] at hcase
        obtain ⟨hax, hby⟩ := chunk_world_inj c.position a b lx ly
          (by rw [hworld, hcase])
        rw [hax, hby] at hp
        have : some p = some (Particle.Liquid fluid) := hp.symm.trans hfl
        injection this with hpl
        exact hnl fluid hpl
      · -- empty destination in the prior map state
        rw [← hrdef] at hcase
        rw [hworld] at hmc
        have : (Except.ok none : Except String (Option Particle)) =
            .ok (some p) := hcase.symm.trans hmc
        injection this with h2
        exact Option.noConfusion h2
      · -- interaction destination: holds a liquid in the prior map state
        rw [← hrdef] at hcase
        rw [hworld] at hmc
        have : (Except.ok (some (Particle.Liquid l)) : Except String (Option Particle)) =
            .ok (some p) := hcase.symm.trans hmc
        injection this with h2
        injection h2 with h3
        exact hnl l h3.symm
    show set2 nc (world_to_local r.1).x (world_to_local r.1).y (some r.2) a b = nc a b
    unfold set2
    rw [if_neg hne]

/-- One iteration of the `Chunk::simulate` cell loop keeps a preserved
non-liquid cell intact in the new-state buffer. -/
theorem simulate_cell_preserves (rdir : Direction) (m : Map) (c : Chunk)
    (coin : Nat → Nat → Bool)
    (st : (Nat → Nat → Option Particle) × List (UVec2 × ParticleMove))
    (xy : Nat × Nat) (a b : Nat) (p : Particle)
    (hp : c.cells a b = some p) (hnl : ∀ l, p ≠ Particle.Liquid l)
    (hmc : m.get_particle_at (chunk_local_to_world c.position ⟨a, b⟩) = .ok (some p))
    (hst : st.1 a b = some p) :
    (simulate_cell rdir m c coin st xy).1 a b = some p := by
  simp only [simulate_cell]
  cases hc : c.cells xy.1 xy.2 with
  | none => exact hst
  | some pp =>
    cases pp with
    | Liquid fl =>
      have hfs := fluid_simulate_preserves rdir m c st.2 st.1 fl xy.1 xy.2
        (coin xy.1 xy.2) a b p hc hp hnl hmc
      show (match (fluid_simulate rdir m c st.2 st.1 fl xy.1 xy.2 (coin xy.1 xy.2)).2 with
        | some mv => ((fluid_simulate rdir m c st.2 st.1 fl xy.1 xy.2 (coin xy.1 xy.2)).1,
            queue_insert st.2 mv)
        | none => ((fluid_simulate rdir m c st.2 st.1 fl xy.1 xy.2 (coin xy.1 xy.2)).1,
            st.2)).1 a b = some p
      cases hr2 : (fluid_simulate rdir m c st.2 st.1 fl xy.1 xy.2 (coin xy.1 xy.2)).2 with
      | some mv => exact hfs.trans hst
      | none => exact hfs.trans hst
    | Common c0 =>
      show set2 st.1 xy.1 xy.2 (some (Particle.Common c0)) a b = some p
      unfold set2
      by_cases heq : a = xy.1 ∧ b = xy.2
      · rw [if_pos heq]
        rw [heq.1, heq.2] at hp
        have hppc := hp.symm.trans hc
        injection hppc with hpc
        rw [hpc]
      · rw [if_neg heq]
        exact hst
    | Special s0 =>
      show set2 st.1 xy.1 xy.2 (some (Particle.Special s0)) a b = some p
      unfold set2
      by_cases heq : a = xy.1 ∧ b = xy.2
      · rw [if_pos heq]
        rw [heq.1, heq.2] at hp
        have hppc := hp.symm.trans hc
        injection hppc with hpc
        rw [hpc]
      · rw [if_neg heq]
        exact hst
    | Solid s0 =>
      show set2 st.1 xy.1 xy.2 (some (Particle.Solid s0)) a b = some p
      unfold set2
      by_cases heq : a = xy.1 ∧ b = xy.2
      · rw [if_pos heq]
        rw [heq.1, heq.2] at hp
        have hppc := hp.symm.trans hc
        injection hppc with hpc
        rw [hpc]
      · rw [if_neg heq]
        exact hst

/-- Folding the cell loop over any list of cells keeps a preserved non-liquid
cell intact. -/
theorem foldl_simulate_preserves (rdir : Direction) (m : Map) (c : Chunk)
    (coin : Nat → Nat → Bool) (a b : Nat) (p : Particle)
    (hp : c.cells a b = some p) (hnl : ∀ l, p ≠ Particle.Liquid l)
    (hmc : m.get_particle_at (chunk_local_to_world c.position ⟨a, b⟩) = .ok (some p)) :
    ∀ (l : List (Nat × Nat))
      (st : (Nat → Nat → Option Particle) × List (UVec2 × ParticleMove)),
      st.1 a b = some p →
      (l.foldl (simulate_cell rdir m c coin) st).1 a b = some p := by
  intro l
  induction l with
  | nil => intro st hst; exact hst
  | cons hd tl ih =>
    intro st hst
    rw [List.foldl_cons]
    exact ih _ (simulate_cell_preserves rdir m c coin st hd a b p hp hnl hmc hst)

/-- C10: `Chunk::simulate` never moves, removes, or alters non-liquid
particles.  For every chunk whose contents agree with the prior map state
(the situation in `Map::simulate_active_chunks`, which clones its own chunks),
every cell holding a Common, Special, or Solid particle before `simulate`
holds the same particle afterwards: empty-destination checks consult the
prior map state (occupied by the non-liquid) and the new-state buffer, and
the rule table registers interactions only between liquids, so no in-chunk
liquid destination write ever lands on such a cell. -/
theorem simulate_preserves_non_liquids (rdir : Direction) (m : Map) (c : Chunk)
    (q : List (UVec2 × ParticleMove)) (coin : Nat → Nat → Bool)
    (hmc : ∀ lx, lx < CHUNK_SIZE → ∀ ly, ly < CHUNK_SIZE →
      m.get_particle_at (chunk_local_to_world c.position ⟨lx, ly⟩) =
        .ok (c.cells lx ly))
    (x y : Nat) (hx : x < CHUNK_SIZE) (hy : y < CHUNK_SIZE)
    (p : Particle) (hp : c.cells x y = some p)
    (hnl : ∀ l, p ≠ Particle.Liquid l) :
    ((c.simulate rdir m q coin).1).cells x y = some p := by
  unfold Chunk.simulate
  cases hs : c.should_simulate with
  | false => exact hp
  | true =>
    have hmcp : m.get_particle_at (chunk_local_to_world c.position ⟨x, y⟩) =
        .ok (some p) := by
      rw [hmc x hx y hy, hp]
    have hmem : (x, y) ∈ cellList := by
      unfold cellList
      rw [List.mem_flatMap]
      exact ⟨x, List.mem_range.2 hx, List.mem_map.2 ⟨y, List.mem_range.2 hy, rfl⟩⟩
    obtain ⟨s, t, hsplit⟩ := List.append_of_mem hmem
    show (cellList.foldl (simulate_cell rdir m c coin) ((fun _ _ => none), q)).1 x y =
      some p
    rw [hsplit, List.foldl_append, List.foldl_cons]
    apply foldl_simulate_preserves rdir m c coin x y p hp hnl hmcp t
    -- the iteration for (x, y) itself writes the particle into the new state
    simp only [simulate_cell]
    rw [hp]
    cases p with
    | Liquid l => exact absurd rfl (hnl l)
    | Common c0 => simp [set2]
    | Special s0 => simp [set2]
    | Solid s0 => simp [set2]

/-- C10 (witness): simulating `mixedChunk` (a stone at (3, 4), water at
(5, 10)) against its consistent map leaves the stone in place. -/
theorem simulate_preserves_non_liquids_witness :
    (mixedChunk.simulate .Left mixedMap [] (fun _ _ => true)).1.cells 3 4 =
      some (Particle.Common .Stone) :=
  simulate_preserves_non_liquids .Left mixedMap mixedChunk [] (fun _ _ => true)
    (by decide) 3 4 (by decide) (by decide) (Particle.Common .Stone) (by decide)
    (fun l h => Particle.noConfusion h)

end Cavernborn
